import Mathlib

/-!
Shallow embedding of `src/cmd_line/commandLine.ts` (the command-line layer of a
Vim emulation for a host editor): the `CommandLine.Run` dispatcher, the
interactive prompt `promptForCommand`, and the history browser `ShowHistory`.

External collaborators (parser, native execution, fallback engine `nvim.run`,
status bar, quick-pick widget) are modelled as oracles supplied in an
environment record; a thrown JavaScript value is an `Exn`, and every call that
can throw returns `Except Exn _`.  Side effects (history store, status-bar
updates, fallback invocations, log lines) are threaded through explicit state
records so the theorems can speak about traces.
-/

/-- A thrown JavaScript value as seen by `Run`'s catch block: either an
`instanceof VimError` (carrying its `code` and its `toString()` rendering), or
any other value (rendered to a string by interpolation). -/
inductive Exn where
  | vim (code : Nat) (str : String)
  | other (str : String)
deriving DecidableEq, Repr

/-- Modelled from the spec: `ErrorCode.E492` from `../error` (not under
`src/`), the structured "unknown command" domain-error code.  Only its
identity matters to `Run`. -/
def E492 : Nat := 492

/-- The attributes of `cmd.command` on a parsed command (the TS field may be
absent, hence `Option` at the use site): here just `neovimCapable`. -/
structure CommandAttrs where
  neovimCapable : Bool
deriving DecidableEq, Repr

/-- Result of `parser.parse`: `command` mirrors the possibly-undefined
`cmd.command`, and `execute` is the (single-shot) outcome of
`cmd.execute(vimState.editor, vimState)`. -/
structure ParsedCommand where
  command : Option CommandAttrs
  execute : Except Exn Unit

/-- Oracles for the external collaborators of `CommandLine.Run`:
`configuration.enableNeovim`, `parser.parse`, the parsed command's native
execution (keyed by the parsed text via `parse`), `vimState.nvim.run`
(fallback engine, returns status text), and `StatusBar.Set` (which, like any
call, may throw). -/
structure Env where
  enableNeovim : Bool
  parse : String → Except Exn ParsedCommand
  nvimRun : String → Except Exn String
  statusSet : String → Except Exn Unit

/-- Observable state of the `CommandLine` singleton plus the effect traces of
one or more `Run` invocations.  `history` is the session `HistoryStore`
(`CommandLineHistory`); its `add`/`get` are modelled from the spec (§4.1:
`add` appends unconditionally, `get` returns the oldest-first sequence) since
`../history/historyFile` is not under `src/`.  `statusUpdates` records every
`StatusBar.Set` invocation (its text), `nvimCalls` every fallback-engine
invocation (its text), `loggedErrors` every `_logger.error` line, and
`parseCalls` counts `parser.parse` invocations. -/
structure RunState where
  history : List String
  historyIndex : Nat
  statusUpdates : List String
  nvimCalls : List String
  loggedErrors : List String
  parseCalls : Nat
deriving DecidableEq, Repr

/-- The initial state of a fresh `CommandLine` (empty history, cursor 0,
empty traces). -/
def initState : RunState :=
  { history := [], historyIndex := 0, statusUpdates := [], nvimCalls := [],
    loggedErrors := [], parseCalls := 0 }

/-- `if (command && command[0] === ':') command = command.slice(1)`. -/
def stripColon (s : String) : String :=
  match s with
  | ⟨':' :: rest⟩ => ⟨rest⟩
  | s => s

/-- The fixed message of the `help` interception: `:help Not supported.` -/
def helpMsg : String := ":help Not supported."

/-- The status text of the domain-error path:
`` `${e.toString()}. ${command}` ``. -/
def errorStatus (estr command : String) : String := estr ++ ". " ++ command

/-- The log line of the unclassified-error path:
`` `Error executing cmd=${command}. err=${e}.` ``. -/
def logMsg (command estr : String) : String :=
  "Error executing cmd=" ++ command ++ ". err=" ++ estr ++ "."

/-- Whether the try block takes the neovim branch:
`configuration.enableNeovim && cmd.command && cmd.command.neovimCapable`. -/
def useNeovim (env : Env) (cmd : ParsedCommand) : Bool :=
  env.enableNeovim && (cmd.command.map CommandAttrs.neovimCapable).getD false

/-- The `try` block of `Run` (source lines 76–85): parse, then either delegate
to the fallback engine and report its status text, or execute natively.  The
`Except` component is the exception (if any) reaching the catch block. -/
def tryBlock (env : Env) (command : String) (st : RunState) :
    Except Exn Unit × RunState :=
  let st := { st with parseCalls := st.parseCalls + 1 }
  match env.parse command with
  | .error e => (.error e, st)
  | .ok cmd =>
    if useNeovim env cmd then
      let st := { st with nvimCalls := st.nvimCalls ++ [command] }
      match env.nvimRun command with
      | .error e => (.error e, st)
      | .ok statusBarText =>
        (env.statusSet statusBarText,
         { st with statusUpdates := st.statusUpdates ++ [statusBarText] })
    else
      (cmd.execute, st)

/-- The `catch` block of `Run` (source lines 86–101).  A `VimError` with code
`E492` while neovim is enabled re-routes to the fallback engine (note the
source discards the fallback's result and performs no status update on this
path); any other `VimError` formats and reports; anything else is only
logged.  Calls made here are not themselves guarded, so their exceptions
escape `Run`. -/
def catchBlock (env : Env) (command : String) (e : Exn) (st : RunState) :
    Except Exn Unit × RunState :=
  match e with
  | .vim code estr =>
    if code = E492 ∧ env.enableNeovim = true then
      ((env.nvimRun command).map fun _ => (),
       { st with nvimCalls := st.nvimCalls ++ [command] })
    else
      (env.statusSet (errorStatus estr command),
       { st with statusUpdates := st.statusUpdates ++ [errorStatus estr command] })
  | .other estr =>
    (.ok (), { st with loggedErrors := st.loggedErrors ++ [logMsg command estr] })

/-- The try/catch of `Run` (source lines 76–101): run the try block; on an
escaped exception run the catch block (whose own calls are unguarded). -/
def runParsed (env : Env) (command : String) (st : RunState) :
    Except Exn Unit × RunState :=
  match tryBlock env command st with
  | (.ok _, st2) => (.ok (), st2)
  | (.error e, st2) => catchBlock env command e st2

/-- `Run` after the colon strip (source lines 68–101): the `help`
interception, the history append and cursor reset (`_commandLineHistoryIndex`
becomes the length of the history after the append), then try/catch. -/
def runStripped (env : Env) (command : String) (st : RunState) :
    Except Exn Unit × RunState :=
  if command = "help" then
    (env.statusSet helpMsg,
     { st with statusUpdates := st.statusUpdates ++ [helpMsg] })
  else
    let st1 := { st with history := st.history ++ [command] }
    runParsed env command { st1 with historyIndex := st1.history.length }

/-- `CommandLine.Run` (source lines 59–102).  The first component is `ok` when
`Run`'s returned promise fulfils and `error e` when the exception `e`
propagates to the caller; the second is the resulting state/trace. -/
def RunModel (env : Env) (command : String) (st : RunState) :
    Except Exn Unit × RunState :=
  if command = "" then (.ok (), st)
  else runStripped env (stripColon command) st

/-! ## The interactive prompt (`promptForCommand`, source lines 115–177) -/

/-- The `type` discriminator of a `CommandItem`: `'input'` is the synthesized
typed entry, `'history'` a recalled persisted-history entry. -/
inductive ItemType where
  | input
  | history
deriving DecidableEq, Repr

/-- `class CommandItem implements vscode.QuickPickItem` (source lines
11–20). -/
structure CommandItem where
  type : ItemType
  label : String
  description : String
deriving DecidableEq, Repr

/-- `label.startsWith(' ')` (leading-space check on the typed text). -/
def startsWithSpace (s : String) : Bool :=
  match s with
  | ⟨' ' :: _⟩ => true
  | _ => false

/-- The persisted history entries wrapped as quick-pick items (source lines
164–171): entry `i` becomes `CommandItem('history', cmd, `(history item i)`)`.
`start` is the index of the first entry of `cmds`. -/
def recalledItems (cmds : List String) (start : Nat) : List CommandItem :=
  match cmds with
  | [] => []
  | c :: rest =>
    ⟨.history, c, "(history item " ++ Nat.repr start ++ ")"⟩ ::
      recalledItems rest (start + 1)

/-- The displayed list right after the prompt opens: the synthesized typed
item when the seed text is non-empty (source line 121, description `(input`),
followed by the persisted entries (appended at source line 172; the memo may
never have been set, in which case there are none). -/
def initialItems (memo : Option (List String)) (text : String) :
    List CommandItem :=
  (if text = "" then [] else [⟨.input, text, "(input"⟩]) ++
    (match memo with
     | none => []
     | some cmds => recalledItems cmds 0)

/-- `updateQuickPick` (source lines 123–136), the transition on a value
change: an empty value drops a leading typed item; a non-empty value replaces
a leading typed item or prepends one. -/
def updateQuickPick (items : List CommandItem) (value : String) :
    List CommandItem :=
  if value = "" then
    match items with
    | item :: rest => if item.type = .input then rest else item :: rest
    | [] => []
  else
    match items with
    | item :: rest =>
      if item.type = .input then ⟨.input, value, "(input)"⟩ :: rest
      else ⟨.input, value, "(input)"⟩ :: item :: rest
    | [] => [⟨.input, value, "(input)"⟩]

/-- The displayed list after a sequence of value-change events. -/
def itemsAfter (memo : Option (List String)) (text : String)
    (changes : List String) : List CommandItem :=
  changes.foldl updateQuickPick (initialItems memo text)

/-- The terminal transition ending a prompt invocation: a selection of the
item at position `i` of the displayed list (`onDidChangeSelection`), or a
dismissal without selection (`onDidHide`). -/
inductive Terminal where
  | select (i : Nat)
  | dismiss

/-- Observable outcome of one prompt invocation: the value the promise
resolved with (`none` models `undefined`), the persisted store afterwards,
the number of `memo.update` writes, the number of event subscriptions pushed
onto `disposables`, and how many times each of them was disposed. -/
structure PromptOutcome where
  resolved : Option String
  memo : Option (List String)
  memoWrites : Nat
  subsRegistered : Nat
  disposeCalls : List Nat
deriving DecidableEq, Repr

/-- The selection/dismissal handlers (source lines 140–161): resolution value,
persisted store afterwards, and number of persisted-store writes.  Selecting a
`'history'` item only resolves; selecting an `'input'` item resolves and, when
its label has no leading space and a memo was set, unshifts the label onto the
persisted list (source lines 151–155); hiding resolves with `undefined`. -/
def promptResolve (memo : Option (List String)) (items : List CommandItem)
    (term : Terminal) : Option String × Option (List String) × Nat :=
  match term with
  | .dismiss => (none, memo, 0)
  | .select i =>
    match items.get? i with
    | none => (none, memo, 0)
    | some item =>
      match item.type with
      | .history => (some item.label, memo, 0)
      | .input =>
        if !startsWithSpace item.label && memo.isSome then
          (some item.label, some (item.label :: memo.getD []), 1)
        else (some item.label, memo, 0)

/-- `promptForCommand` (source lines 115–177) over one invocation: the three
handlers are pushed onto `disposables`, the value-change events then the one
terminal transition fire, and the `finally` block disposes every registered
subscription exactly once (`disposables.forEach(d => d.dispose())`); no
handler disposes any of them earlier. -/
def promptForCommand (memo : Option (List String)) (text : String)
    (changes : List String) (term : Terminal) : PromptOutcome :=
  let p := promptResolve memo (itemsAfter memo text changes) term
  { resolved := p.1, memo := p.2.1, memoWrites := p.2.2,
    subsRegistered := 3, disposeCalls := List.replicate 3 1 }

/-! ## The history browser (`ShowHistory`, source lines 188–208) -/

/-- State visible to `ShowHistory`: the session `HistoryStore` and the
persisted store (which `ShowHistory` never touches). -/
structure ShowState where
  history : List String
  memo : Option (List String)
deriving DecidableEq, Repr

/-- `CommandLine.ShowHistory` (source lines 188–208): with no active editor it
returns `''` at once; otherwise it appends the seed text to the history,
shows the history reversed in a quick pick (`pick` models
`vscode.window.showQuickPick`, returning `none` on cancellation), and returns
the choice. -/
def ShowHistory (activeEditor : Bool) (pick : List String → Option String)
    (initialText : String) (st : ShowState) : Option String × ShowState :=
  if !activeEditor then (some "", st)
  else
    let st := { st with history := st.history ++ [initialText] }
    (pick st.history.reverse, st)

/-! ## Concrete environments used by counterexamples and witnesses -/

/-- An environment whose parser always fails with an unclassified error and
whose collaborators never throw; neovim disabled. -/
def envInert : Env :=
  { enableNeovim := false,
    parse := fun _ => .error (.other "ignored"),
    nvimRun := fun _ => .ok "",
    statusSet := fun _ => .ok () }

/-- Neovim enabled, parser failing with the "unknown command" `VimError`
(code `E492`), fallback engine succeeding with a definite status text. -/
def envE492 : Env :=
  { enableNeovim := true,
    parse := fun _ => .error (.vim E492 "E492: Not an editor command"),
    nvimRun := fun _ => .ok "fallback output",
    statusSet := fun _ => .ok () }

/-- Parser failing with a `VimError` whose code is not `E492`; neovim
disabled. -/
def envE488 : Env :=
  { enableNeovim := false,
    parse := fun _ => .error (.vim 488 "E488: Trailing characters"),
    nvimRun := fun _ => .ok "",
    statusSet := fun _ => .ok () }

/-- All collaborators succeed except the status display, which throws. -/
def envStatusThrows : Env :=
  { enableNeovim := false,
    parse := fun _ => .error (.other "unused"),
    nvimRun := fun _ => .ok "",
    statusSet := fun _ => .error (.other "boom") }

/-- Collaborators never throw; the parser fails with an unclassified
(non-`VimError`) value. -/
def envMisc : Env :=
  { enableNeovim := true,
    parse := fun _ => .error (.other "TypeError: x is undefined"),
    nvimRun := fun _ => .ok "nvim ok",
    statusSet := fun _ => .ok () }

/-! ## Helper lemmas -/

/-- The try block never touches the history store or the browsing cursor. -/
lemma tryBlock_hist (env : Env) (c : String) (st : RunState) :
    (tryBlock env c st).2.history = st.history ∧
    (tryBlock env c st).2.historyIndex = st.historyIndex := by
  unfold tryBlock
  cases hp : env.parse c with
  | error e => simp
  | ok cmd =>
    by_cases hu : useNeovim env cmd = true
    · simp only [hu]
      cases hr : env.nvimRun c with
      | error e => simp
      | ok t => simp
    · simp [hu]

/-- The catch block never touches the history store or the browsing cursor. -/
lemma catchBlock_hist (env : Env) (c : String) (e : Exn) (st : RunState) :
    (catchBlock env c e st).2.history = st.history ∧
    (catchBlock env c e st).2.historyIndex = st.historyIndex := by
  unfold catchBlock
  cases e with
  | vim code estr =>
    by_cases hc : code = E492 ∧ env.enableNeovim = true
    · simp [hc]
    · simp [hc]
  | other estr => simp

/-- The whole try/catch never touches the history store or the cursor. -/
lemma runParsed_hist (env : Env) (c : String) (st : RunState) :
    (runParsed env c st).2.history = st.history ∧
    (runParsed env c st).2.historyIndex = st.historyIndex := by
  unfold runParsed
  rcases htr : tryBlock env c st with ⟨r, st2⟩
  have h2 := tryBlock_hist env c st
  rw [htr] at h2
  cases r with
  | error e =>
    have h3 := catchBlock_hist env c e st2
    simp only []
    exact ⟨h3.1.trans h2.1, h3.2.trans h2.2⟩
  | ok u => exact h2

/-- When no collaborator call in the catch block throws, the catch block
fulfils. -/
lemma catchBlock_fst_ok (env : Env) (c : String) (e : Exn) (st : RunState)
    (hs : ∀ s, env.statusSet s = .ok ())
    (hn : ∀ s, ∃ t, env.nvimRun s = .ok t) :
    (catchBlock env c e st).1 = .ok () := by
  unfold catchBlock
  cases e with
  | vim code estr =>
    by_cases hc : code = E492 ∧ env.enableNeovim = true
    · obtain ⟨t, ht⟩ := hn c
      simp [hc, ht, Except.map]
    · simp [hc, hs]
  | other estr => rfl

/-- When neither the status display nor the fallback engine throws, the whole
try/catch fulfils. -/
lemma runParsed_fst_ok (env : Env) (c : String) (st : RunState)
    (hs : ∀ s, env.statusSet s = .ok ())
    (hn : ∀ s, ∃ t, env.nvimRun s = .ok t) :
    (runParsed env c st).1 = .ok () := by
  unfold runParsed
  rcases htr : tryBlock env c st with ⟨r, st2⟩
  cases r with
  | error e => exact catchBlock_fst_ok env c e st2 hs hn
  | ok u => rfl

/-! ## Claim theorems -/

/-- C6: for the input texts `help` and `:help`, `Run` never invokes the
parser, leaves the history store and the browsing cursor unchanged, and
performs exactly one status update, with the fixed `:help Not supported.`
message (the full result equation below implies all of this: the state is
unchanged except for the single appended status-update record). -/
theorem c6_help_intercepted (env : Env) (st : RunState) :
    RunModel env "help" st
      = (env.statusSet helpMsg,
         { st with statusUpdates := st.statusUpdates ++ [helpMsg] }) ∧
    RunModel env ":help" st
      = (env.statusSet helpMsg,
         { st with statusUpdates := st.statusUpdates ++ [helpMsg] }) := by
  exact ⟨rfl, rfl⟩

/-- C2 counterexample: the claim "no empty string is ever appended to
HistoryStore" is false.  The input `":"` passes the non-empty guard, is
stripped to the empty string, and that empty string is appended by `Run`;
likewise `ShowHistory` with an empty seed and an active editor appends the
empty string. -/
theorem c2_empty_string_appended :
    (RunModel envInert ":" initState).2.history = [""] ∧
    (ShowHistory true (fun _ => none) "" { history := [], memo := some [] }).2.history
      = [""] := by
  exact ⟨rfl, rfl⟩

/-- C2 amended: `Run` appends the colon-stripped text exactly when the raw
input is non-empty and the stripped text is not the literal `help` — so the
input `":"` appends the empty string — and `ShowHistory` appends its seed
text unconditionally whenever an editing session is active, including an
empty seed.  The if-and-only-if with non-emptiness fails only at those empty
strings. -/
theorem c2_history_append_characterization :
    (∀ (env : Env) (command : String) (st : RunState),
      (RunModel env command st).2.history =
        if command = "" ∨ stripColon command = "help" then st.history
        else st.history ++ [stripColon command]) ∧
    (∀ (active : Bool) (pick : List String → Option String) (seed : String)
        (sst : ShowState),
      (ShowHistory active pick seed sst).2.history =
        if active then sst.history ++ [seed] else sst.history) := by
  constructor
  · intro env command st
    by_cases hc : command = ""
    · simp [RunModel, hc]
    · by_cases hh : stripColon command = "help"
      · simp [RunModel, hc, runStripped, hh]
      · simp only [RunModel, if_neg hc, runStripped, if_neg hh]
        rw [(runParsed_hist env (stripColon command) _).1]
        simp [hc, hh]
  · intro active pick seed sst
    cases active <;> simp [ShowHistory]

/-- C4 counterexample: the claim fails for the non-empty command text
`help`, which is intercepted before the history append: the history length
does not increase. -/
theorem c4_help_breaks_append :
    (RunModel envInert "help" initState).2.history.length
      ≠ initState.history.length + 1 := by
  have h1 : (RunModel envInert "help" initState).2.history.length = 0 := rfl
  have h2 : initState.history.length = 0 := rfl
  omega

/-- C4 amended: for every non-empty command text whose colon-stripped form is
not the literal `help`, after `Run` completes the history store's length has
increased by exactly one and the browsing cursor equals the new length. -/
theorem c4_append_and_cursor (env : Env) (command : String) (st : RunState)
    (hne : command ≠ "") (hnh : stripColon command ≠ "help") :
    (RunModel env command st).2.history.length = st.history.length + 1 ∧
    (RunModel env command st).2.historyIndex
      = (RunModel env command st).2.history.length := by
  simp only [RunModel, if_neg hne, runStripped, if_neg hnh]
  have h := runParsed_hist env (stripColon command)
    { st with history := st.history ++ [stripColon command],
              historyIndex := (st.history ++ [stripColon command]).length }
  rw [h.1, h.2]
  simp

/-- C4 witness: the amended claim at the concrete input `w` from the initial
state. -/
theorem c4_append_and_cursor_witness :
    (RunModel envInert "w" initState).2.history.length
        = initState.history.length + 1 ∧
    (RunModel envInert "w" initState).2.historyIndex
        = (RunModel envInert "w" initState).2.history.length :=
  c4_append_and_cursor envInert "w" initState (by decide) (by decide)

/-- C1 counterexample: with neovim enabled, a parse failure carrying the
"unknown command" code `E492` is re-routed to the fallback engine, but the
fallback engine's returned status text (`"fallback output"` here) is
discarded: no status update at all is performed, so the result is not
reported to the status display as the claim states. -/
theorem c1_fallback_result_not_reported :
    (RunModel envE492 "foo" initState).2.nvimCalls = ["foo"] ∧
    (RunModel envE492 "foo" initState).2.statusUpdates = [] := by
  exact ⟨rfl, rfl⟩

/-- C1 amended: for every command text whose parse, or whose native
execution, fails with a `VimError` carrying code `E492` while neovim is
enabled, and whose fallback invocation returns normally, `Run` re-routes the
same (colon-stripped) text to the fallback engine exactly once, fulfils, and
performs no status update at all — the fallback engine's returned status
text is discarded rather than reported. -/
theorem c1_e492_reroute_discards_result (env : Env) (command : String)
    (st : RunState) (estr : String)
    (hne : command ≠ "") (hnh : stripColon command ≠ "help")
    (hnv : env.enableNeovim = true)
    (hfail : env.parse (stripColon command) = .error (.vim E492 estr) ∨
      ∃ cmd, env.parse (stripColon command) = .ok cmd ∧
        useNeovim env cmd = false ∧ cmd.execute = .error (.vim E492 estr))
    (hrun : ∃ t, env.nvimRun (stripColon command) = .ok t) :
    (RunModel env command st).1 = .ok () ∧
    (RunModel env command st).2.nvimCalls
        = st.nvimCalls ++ [stripColon command] ∧
    (RunModel env command st).2.statusUpdates = st.statusUpdates := by
  obtain ⟨t, ht⟩ := hrun
  rcases hfail with hp | ⟨cmd, hp, hu, he⟩
  · simp [RunModel, hne, runStripped, hnh, runParsed, tryBlock, hp,
      catchBlock, hnv, ht, Except.map]
  · simp [RunModel, hne, runStripped, hnh, runParsed, tryBlock, hp, hu, he,
      catchBlock, hnv, ht, Except.map]

/-- C1 witness: the amended claim at the concrete input `foo` under
`envE492`. -/
theorem c1_e492_reroute_discards_result_witness :
    (RunModel envE492 "foo" initState).1 = .ok () ∧
    (RunModel envE492 "foo" initState).2.nvimCalls
        = initState.nvimCalls ++ [stripColon "foo"] ∧
    (RunModel envE492 "foo" initState).2.statusUpdates
        = initState.statusUpdates :=
  c1_e492_reroute_discards_result envE492 "foo" initState
    "E492: Not an editor command" (by decide) (by decide) rfl
    (Or.inl rfl) ⟨"fallback output", rfl⟩

/-- C5: a parse or native-execution failure with a `VimError` whose code is
not `E492`-with-neovim-enabled (so any other code, or any code with the
fallback capability disabled) produces exactly one status update, whose text
is the formatted error followed by the command text (`e.toString()`, a
period and space, then the colon-stripped command), and no fallback-engine
invocation. -/
theorem c5_domain_error_status_no_fallback (env : Env) (command : String)
    (st : RunState) (code : Nat) (estr : String)
    (hne : command ≠ "") (hnh : stripColon command ≠ "help")
    (hcode : ¬(code = E492 ∧ env.enableNeovim = true))
    (hfail : env.parse (stripColon command) = .error (.vim code estr) ∨
      ∃ cmd, env.parse (stripColon command) = .ok cmd ∧
        useNeovim env cmd = false ∧ cmd.execute = .error (.vim code estr)) :
    (RunModel env command st).2.statusUpdates
        = st.statusUpdates ++ [errorStatus estr (stripColon command)] ∧
    (RunModel env command st).2.nvimCalls = st.nvimCalls := by
  rcases hfail with hp | ⟨cmd, hp, hu, he⟩
  · simp [RunModel, hne, runStripped, hnh, runParsed, tryBlock, hp,
      catchBlock, hcode]
  · simp [RunModel, hne, runStripped, hnh, runParsed, tryBlock, hp, hu, he,
      catchBlock, hcode]

/-- C5 witness: the claim at the concrete input `bar` under `envE488` (code
488, neovim disabled). -/
theorem c5_domain_error_status_no_fallback_witness :
    (RunModel envE488 "bar" initState).2.statusUpdates
        = initState.statusUpdates
            ++ [errorStatus "E488: Trailing characters" (stripColon "bar")] ∧
    (RunModel envE488 "bar" initState).2.nvimCalls = initState.nvimCalls :=
  c5_domain_error_status_no_fallback envE488 "bar" initState 488
    "E488: Trailing characters" (by decide) (by decide) (by decide)
    (Or.inl rfl)

/-- C3 counterexample: the claim "no exception propagates to the caller of
Run" quantifies over every behaviour of the status display, including its
throwing; but the `StatusBar.Set` call on the `help` path sits outside the
try/catch, so its exception propagates out of `Run`. -/
theorem c3_status_throw_propagates :
    (RunModel envStatusThrows "help" initState).1 = .error (.other "boom") ∧
    (RunModel envStatusThrows "help" initState).1 ≠ .ok () := by
  refine ⟨rfl, ?_⟩
  intro h
  rw [show (RunModel envStatusThrows "help" initState).1
        = .error (.other "boom") from rfl] at h
  exact Except.noConfusion h

/-- C3 amended: failures raised by the parser, the native execution, and the
calls inside the try block are all caught by `Run`; provided the status
display and the fallback engine themselves return normally (their calls on
the `help` path and inside the catch block are unguarded), no exception
propagates to the caller, and a failure that is not a `VimError` is logged
internally and produces no status update. -/
theorem c3_swallows_when_collaborators_return (env : Env)
    (hs : ∀ s, env.statusSet s = .ok ())
    (hn : ∀ s, ∃ t, env.nvimRun s = .ok t)
    (command : String) (st : RunState) :
    (RunModel env command st).1 = .ok () ∧
    (∀ estr, command ≠ "" → stripColon command ≠ "help" →
      env.parse (stripColon command) = .error (.other estr) →
      (RunModel env command st).2.statusUpdates = st.statusUpdates ∧
      (RunModel env command st).2.loggedErrors
          = st.loggedErrors ++ [logMsg (stripColon command) estr]) := by
  constructor
  · by_cases hc : command = ""
    · simp [RunModel, hc]
    · by_cases hh : stripColon command = "help"
      · simp [RunModel, hc, runStripped, hh, hs]
      · simp only [RunModel, if_neg hc, runStripped, if_neg hh]
        exact runParsed_fst_ok env _ _ hs hn
  · intro estr hne hnh hp
    constructor <;>
      simp [RunModel, hne, runStripped, hnh, runParsed, tryBlock, hp,
        catchBlock]

/-- C3 witness: the amended claim under `envMisc` (no collaborator throws,
parser fails with an unclassified error) at the concrete input `baz`. -/
theorem c3_swallows_when_collaborators_return_witness :
    (RunModel envMisc "baz" initState).1 = .ok () ∧
    (RunModel envMisc "baz" initState).2.statusUpdates
        = initState.statusUpdates ∧
    (RunModel envMisc "baz" initState).2.loggedErrors
        = initState.loggedErrors
            ++ [logMsg (stripColon "baz") "TypeError: x is undefined"] := by
  have h := c3_swallows_when_collaborators_return envMisc
    (fun _ => rfl) (fun _ => ⟨"nvim ok", rfl⟩) "baz" initState
  have h2 := h.2 "TypeError: x is undefined" (by decide) (by decide) rfl
  exact ⟨h.1, h2.1, h2.2⟩

/-- A value-change transition keeps every displayed item of type `'input'`
and keeps the list at most a singleton, provided that held before (the
situation when the memo was never set). -/
lemma updateQuickPick_all_input (items : List CommandItem) (v : String)
    (h1 : ∀ it ∈ items, it.type = ItemType.input) (h2 : items.length ≤ 1) :
    (∀ it ∈ updateQuickPick items v, it.type = ItemType.input) ∧
    (updateQuickPick items v).length ≤ 1 := by
  cases items with
  | nil => by_cases hv : v = "" <;> simp [updateQuickPick, hv]
  | cons item rest =>
    have hr : rest = [] := by
      cases rest with
      | nil => rfl
      | cons b bs => simp at h2
    subst hr
    have hit : item.type = ItemType.input := h1 item (by simp)
    by_cases hv : v = "" <;> simp [updateQuickPick, hv, hit]

/-- With no memo ever set, the displayed list consists of `'input'` items
only and never holds more than one item, whatever value changes occur. -/
lemma itemsAfter_none_all_input (text : String) (changes : List String) :
    (∀ it ∈ itemsAfter none text changes, it.type = ItemType.input) ∧
    (itemsAfter none text changes).length ≤ 1 := by
  have key : ∀ (cs : List String) (items : List CommandItem),
      (∀ it ∈ items, it.type = ItemType.input) → items.length ≤ 1 →
      (∀ it ∈ cs.foldl updateQuickPick items, it.type = ItemType.input) ∧
      (cs.foldl updateQuickPick items).length ≤ 1 := by
    intro cs
    induction cs with
    | nil => intro items h1 h2; exact ⟨h1, h2⟩
    | cons v rest ih =>
      intro items h1 h2
      rw [List.foldl_cons]
      obtain ⟨g1, g2⟩ := updateQuickPick_all_input items v h1 h2
      exact ih _ g1 g2
  refine key changes (initialItems none text) ?_ ?_
  · intro it hmem
    unfold initialItems at hmem
    by_cases ht : text = ""
    · simp [ht] at hmem
    · simp [ht] at hmem
      subst hmem
      rfl
  · unfold initialItems
    by_cases ht : text = "" <;> simp [ht]

/-- C7: on a selection terminal transition with the persisted store present,
the store is written if and only if the selected item is the typed
(`'input'`) one and its text has no leading space; when written, the write
is exactly a prepend of that text at position 0, and selecting a recalled
(`'history'`) item leaves the store's order and length unchanged.  The
prompt resolves with the selected item's text either way. -/
theorem c7_persisted_iff_typed_nonspace (persisted : List String)
    (text : String) (changes : List String) (i : Nat) (item : CommandItem)
    (hitem : (itemsAfter (some persisted) text changes).get? i = some item) :
    (promptForCommand (some persisted) text changes (.select i)).memo
        = some (if item.type = ItemType.input ∧ startsWithSpace item.label = false
                then item.label :: persisted else persisted) ∧
    (promptForCommand (some persisted) text changes (.select i)).memoWrites
        = (if item.type = ItemType.input ∧ startsWithSpace item.label = false
           then 1 else 0) ∧
    (promptForCommand (some persisted) text changes (.select i)).resolved
        = some item.label := by
  rcases item with ⟨ty, label, desc⟩
  rw [List.get?_eq_getElem?] at hitem
  cases ty with
  | history => simp [promptForCommand, promptResolve, hitem]
  | input =>
    cases hsp : startsWithSpace label with
    | false => simp [promptForCommand, promptResolve, hitem, hsp]
    | true => simp [promptForCommand, promptResolve, hitem, hsp]

/-- C7 witness: opening the prompt with seed `x`, persisted store `["old"]`,
and selecting the synthesized typed item prepends `x` at position 0 and
resolves with `x`. -/
theorem c7_persisted_iff_typed_nonspace_witness :
    (promptForCommand (some ["old"]) "x" [] (Terminal.select 0)).memo
        = some ["x", "old"] ∧
    (promptForCommand (some ["old"]) "x" [] (Terminal.select 0)).memoWrites
        = 1 ∧
    (promptForCommand (some ["old"]) "x" [] (Terminal.select 0)).resolved
        = some "x" := by
  have h := c7_persisted_iff_typed_nonspace ["old"] "x" [] 0
    ⟨ItemType.input, "x", "(input"⟩ rfl
  exact ⟨h.1, h.2.1, h.2.2⟩

/-- C8: every prompt invocation registers three event subscriptions
(`onDidChangeValue`, `onDidChangeSelection`, `onDidHide`) and, whichever
terminal transition ends it, each registered subscription is disposed
exactly once by the `finally` block: none leaked, none disposed twice. -/
theorem c8_subscriptions_disposed_once (memo : Option (List String))
    (text : String) (changes : List String) (term : Terminal) :
    (promptForCommand memo text changes term).subsRegistered = 3 ∧
    (promptForCommand memo text changes term).disposeCalls
        = List.replicate
            (promptForCommand memo text changes term).subsRegistered 1 := by
  exact ⟨rfl, rfl⟩

/-- C9 counterexample: cancellation and an absent editing session do not
return one and the same "no command" value — with no active editor
`ShowHistory` returns the empty string `''`, while a cancelled quick pick
returns `undefined`, and those two values differ. -/
theorem c9_no_command_values_differ :
    (ShowHistory false (fun _ => none) "x"
        { history := [], memo := some [] }).1 = some "" ∧
    (ShowHistory true (fun _ => none) "x"
        { history := [], memo := some [] }).1 = none ∧
    (some "" : Option String) ≠ (none : Option String) := by
  refine ⟨rfl, rfl, ?_⟩
  simp

/-- C9 amended: with an active editing session, `ShowHistory` appends the
seed text to the history store, presents the store's contents reversed
(most-recent-first) to the picker, returns the picker's choice (`none`,
i.e. `undefined`, when cancelled), and never mutates the persisted store;
with no active session it returns the empty string `''` without touching any
state. -/
theorem c9_show_history_behavior (pick : List String → Option String)
    (seed : String) (sst : ShowState) :
    ShowHistory false pick seed sst = (some "", sst) ∧
    (ShowHistory true pick seed sst).1
        = pick (sst.history ++ [seed]).reverse ∧
    (ShowHistory true pick seed sst).2
        = { sst with history := sst.history ++ [seed] } := by
  exact ⟨rfl, rfl, rfl⟩

/-- C10: when `setMemo` was never called, the displayed list contains no
recalled (`'history'`) entries — it is at most the single typed item, present
exactly when the live text is non-empty — and selecting the typed item still
resolves the prompt with its text while the persisted store is never
written. -/
theorem c10_no_memo_no_recalled (text : String) (changes : List String) :
    (∀ it ∈ itemsAfter none text changes, it.type = ItemType.input) ∧
    (itemsAfter none text changes).length ≤ 1 ∧
    (∀ i item, (itemsAfter none text changes).get? i = some item →
      (promptForCommand none text changes (.select i)).resolved
          = some item.label ∧
      (promptForCommand none text changes (.select i)).memoWrites = 0 ∧
      (promptForCommand none text changes (.select i)).memo = none) := by
  obtain ⟨hall, hlen⟩ := itemsAfter_none_all_input text changes
  refine ⟨hall, hlen, ?_⟩
  intro i item hget
  have hmem : item ∈ itemsAfter none text changes := List.get?_mem hget
  have htype := hall item hmem
  rcases item with ⟨ty, label, desc⟩
  rw [List.get?_eq_getElem?] at hget
  simp only [] at htype
  subst htype
  simp [promptForCommand, promptResolve, hget]

/-- C10 witness: seed text `x`, memo never set, selecting the typed item. -/
theorem c10_no_memo_no_recalled_witness :
    (promptForCommand none "x" [] (Terminal.select 0)).resolved = some "x" ∧
    (promptForCommand none "x" [] (Terminal.select 0)).memoWrites = 0 ∧
    (promptForCommand none "x" [] (Terminal.select 0)).memo = none :=
  (c10_no_memo_no_recalled "x" []).2.2 0 ⟨ItemType.input, "x", "(input"⟩ rfl
